import Mathlib

/-!
# Authentication gate and friend-request engine

A shallow embedding of `src/auth.js` and of the `/login`, `/friend/request/:to_user`
and `/friend/accept/:from_user` handlers of `src/server.js`.

* Handlers are functions from a store (the rows of the tables they touch) to a new
  store and the response they send.
* `requireAuth` returns a record of everything it does: the response it sends (if any),
  the value it leaves in `req.user`, how often it calls `next`, and the arguments it
  passes to `jwt.verify`.
* The libraries the code calls (`jsonwebtoken`, `bcryptjs`) and the table declarations
  are not part of the sources; they appear as parameters or as definitions whose doc
  comment says what they are modelled from.
-/

namespace Social

/-! ## Rows and store -/

/-- Values of `friend_requests.status`. -/
inductive Status where
  | Pending
  | Accepted
  deriving DecidableEq, Repr

/-- A row of `users`. -/
structure UserRow where
  user_id : Nat
  username : String
  email : String
  password_hash : String
  streak : Nat
  deriving DecidableEq, Repr

/-- A row of `friend_requests`. -/
structure RequestRow where
  user_id_one : Nat
  user_id_two : Nat
  status : Status
  deriving DecidableEq, Repr

/-- A row of `friend`. -/
structure FriendRow where
  user_id_1 : Nat
  user_id_2 : Nat
  deriving DecidableEq, Repr

/-- The tables read or written by the modelled handlers, each as its list of rows. -/
structure Store where
  users : List UserRow
  friend_requests : List RequestRow
  friend : List FriendRow
  deriving DecidableEq, Repr

/-- Modelled from the spec: the column default of `friend_requests.status` (the table
declaration is not in the sources); a new request is `Pending`. -/
def defaultStatus : Status := Status.Pending

/-- Modelled from the spec: the unique key of `friend_requests` (the table declaration is
not in the sources): the ordered pair `(user_id_one = requester, user_id_two = target)`.
`sameRequest r a b` says that row `r` carries the key `(a, b)`. -/
def sameRequest (r : RequestRow) (a b : Nat) : Bool :=
  decide (r.user_id_one = a) && decide (r.user_id_two = b)

/-- Modelled from the spec: the unique key of `friend` (the table declaration is not in
the sources). Friendship is a symmetric relation with no inherent direction, unique per
unordered pair: `sameFriend r a b` says that row `r` is the edge between `a` and `b`, in
either column order. -/
def sameFriend (r : FriendRow) (a b : Nat) : Bool :=
  (decide (r.user_id_1 = a) && decide (r.user_id_2 = b)) ||
    (decide (r.user_id_1 = b) && decide (r.user_id_2 = a))

/-- The key columns of a `friend_requests` row. -/
def RequestRow.key (r : RequestRow) : Nat × Nat := (r.user_id_one, r.user_id_two)

/-- The two columns of a `friend` row. -/
def FriendRow.key (r : FriendRow) : Nat × Nat := (r.user_id_1, r.user_id_2)

/-- The unordered pair a `friend` row stands for, smaller user first. -/
def FriendRow.edge (r : FriendRow) : Nat × Nat :=
  (min r.user_id_1 r.user_id_2, max r.user_id_1 r.user_id_2)

/-- No two `friend_requests` rows carry the same key and no two `friend` rows are
identical. -/
def Store.wf (s : Store) : Prop :=
  (s.friend_requests.map RequestRow.key).Nodup ∧ (s.friend.map FriendRow.key).Nodup

instance (s : Store) : Decidable s.wf := by
  unfold Store.wf
  exact inferInstance

/-- The `friend` table satisfies its unique key: no two rows stand for the same unordered
pair. -/
def Store.friendUnique (s : Store) : Prop := (s.friend.map FriendRow.edge).Nodup

instance (s : Store) : Decidable s.friendUnique := by
  unfold Store.friendUnique
  exact inferInstance

/-! ## Responses -/

/-- The JSON bodies the modelled handlers send. -/
inductive Body where
  | error (msg : String)
  | token (t : String)
  | sent
  | accepted
  deriving DecidableEq, Repr

/-- A response: status code and JSON body. -/
structure Response where
  status : Nat
  body : Body
  deriving DecidableEq, Repr

/-- `res.json(body)`: status 200. -/
def Response.json (b : Body) : Response := ⟨200, b⟩

/-! ## Statements of the relationship engine -/

/-- `INSERT INTO friend_requests (user_id_one, user_id_two) VALUES ($1,$2)
ON CONFLICT DO NOTHING`. -/
def insertRequest (rows : List RequestRow) (one two : Nat) : List RequestRow :=
  if rows.any (fun r => sameRequest r one two) then rows
  else rows ++ [⟨one, two, defaultStatus⟩]

/-- `UPDATE friend_requests SET status = 'Accepted' WHERE user_id_one=$1 AND user_id_two=$2`. -/
def updateAccepted (rows : List RequestRow) (one two : Nat) : List RequestRow :=
  rows.map (fun r => if sameRequest r one two then { r with status := Status.Accepted } else r)

/-- `INSERT INTO friend (user_id_1, user_id_2) VALUES ($1,$2) ON CONFLICT DO NOTHING`. -/
def insertFriend (rows : List FriendRow) (u1 u2 : Nat) : List FriendRow :=
  if rows.any (fun r => sameFriend r u1 u2) then rows
  else rows ++ [⟨u1, u2⟩]

/-- `POST /friend/request/:to_user`, called by the authenticated user `caller`. -/
def friendRequest (s : Store) (caller to_user : Nat) : Store × Response :=
  ({ s with friend_requests := insertRequest s.friend_requests caller to_user },
   Response.json Body.sent)

/-- `POST /friend/accept/:from_user`, called by the authenticated user `caller`. -/
def friendAccept (s : Store) (caller from_user : Nat) : Store × Response :=
  let updated := updateAccepted s.friend_requests from_user caller
  let friends := insertFriend s.friend from_user caller
  ({ s with friend_requests := updated, friend := friends }, Response.json Body.accepted)

/-- A call of the relationship engine. -/
inductive Op where
  | request (caller to_user : Nat)
  | accept (caller from_user : Nat)
  deriving DecidableEq, Repr

/-- One call applied to the store. -/
def step (s : Store) : Op → Store
  | Op.request c t => (friendRequest s c t).1
  | Op.accept c f => (friendAccept s c f).1

/-- A sequence of calls applied in order. -/
def run (s : Store) (ops : List Op) : Store := ops.foldl step s

/-! ## Credentials and session tokens (`src/auth.js`) -/

/-- The identity claims of a session token: the payload `token` signs and the fields the
handlers read back from `req.user`. -/
structure Claims where
  user_id : Nat
  username : String
  deriving DecidableEq, Repr

/-- Modelled from the spec: the SessionToken of the data model, a claim set with its
expiration time and a signature over both. -/
structure SessionToken where
  claims : Claims
  expires_at : Nat
  signature : Nat
  deriving DecidableEq, Repr

/-- Modelled from the spec: the two ways Session Issuer `verify` fails. -/
inductive JwtError where
  | InvalidSignature
  | Expired
  deriving DecidableEq, Repr

/-- The parts of the token library the model leaves open: the keyed signature over the
claims and the expiration time, and the compact string form of a signed token. -/
structure JwtLib where
  mac : String → Claims → Nat → Nat
  encode : SessionToken → String
  decode : String → Option SessionToken

/-- Seconds in `expiresIn: "7d"`. -/
def sevenDays : Nat := 7 * 24 * 60 * 60

/-- Modelled from the spec: the token Session Issuer `issue` mints. The signature is
computed over the claims plus an expiration time set to `now + expiresIn`, under the
secret. -/
def signedToken (lib : JwtLib) (payload : Claims) (secret : String) (expiresIn now : Nat) :
    SessionToken :=
  ⟨payload, now + expiresIn, lib.mac secret payload (now + expiresIn)⟩

/-- Modelled from the spec: Session Issuer `issue` (the library function `jwt.sign` is not
in the sources): the compact string form of the signed token. -/
def jwtSign (lib : JwtLib) (payload : Claims) (secret : String) (expiresIn now : Nat) :
    String :=
  lib.encode (signedToken lib payload secret expiresIn now)

/-- Modelled from the spec: Session Issuer `verify` (the library function `jwt.verify` is
not in the sources). Fails with `InvalidSignature` if the signature does not match, with
`Expired` if the current time exceeds the embedded expiration, and otherwise returns the
embedded claims. A string that is no token at all has no matching signature. -/
def jwtVerify (lib : JwtLib) (t : String) (secret : String) (now : Nat) :
    Except JwtError Claims :=
  match lib.decode t with
  | none => Except.error JwtError.InvalidSignature
  | some tok =>
    if lib.mac secret tok.claims tok.expires_at ≠ tok.signature then
      Except.error JwtError.InvalidSignature
    else if now > tok.expires_at then Except.error JwtError.Expired
    else Except.ok tok.claims

/-- `token(user)`: signs `{ user_id: user.user_id, username: user.username }` with
`process.env.JWT_SECRET` and `expiresIn: "7d"`. -/
def token (lib : JwtLib) (JWT_SECRET : String) (now : Nat) (user : UserRow) : String :=
  jwtSign lib ⟨user.user_id, user.username⟩ JWT_SECRET sevenDays now

/-- `String.prototype.startsWith`. -/
def startsWith (s pre : String) : Bool := pre.data.isPrefixOf s.data

/-- `String.prototype.slice(n)`. -/
def slice (s : String) (n : Nat) : String := String.mk (s.data.drop n)

/-- Everything `requireAuth` does: the response it sends (none when it sends nothing),
the value of `req.user` afterwards (none when it is never assigned), the number of calls
of `next`, and the arguments passed to `jwt.verify`, in order. -/
structure GateResult where
  response : Option Response
  user : Option Claims
  nextCalls : Nat
  verifyCalls : List String
  deriving DecidableEq, Repr

/-- `res.status(401).json({ error: "Missing token" })`, nothing else done. -/
def missingToken : GateResult :=
  ⟨some ⟨401, Body.error "Missing token"⟩, none, 0, []⟩

/-- `requireAuth(req, res, next)`. `authorization` is `req.headers.authorization`
(none when the header is absent) and `verify t` is `jwt.verify(t, process.env.JWT_SECRET)`,
an error standing for any exception it throws. -/
def requireAuth {ε : Type} (verify : String → Except ε Claims)
    (authorization : Option String) : GateResult :=
  -- `req.headers.authorization || ""`
  let header := authorization.getD ""
  let t : Option String := if startsWith header "Bearer " then some (slice header 7) else none
  -- `!t` holds for `null` and for the empty string
  match t with
  | none => missingToken
  | some tok =>
    if tok = "" then missingToken
    else
      match verify tok with
      | Except.ok claims => ⟨none, some claims, 1, [tok]⟩
      | Except.error _ => ⟨some ⟨401, Body.error "Invalid token"⟩, none, 0, [tok]⟩

/-- The gate as the server runs it: `jwt.verify` under the process secret at time `now`. -/
def gate (lib : JwtLib) (JWT_SECRET : String) (now : Nat) (authorization : Option String) :
    GateResult :=
  requireAuth (fun t => jwtVerify lib t JWT_SECRET now) authorization

/-- The request was rejected: a response was sent and `next` was not called. -/
def GateResult.rejected (r : GateResult) : Bool :=
  r.response.isSome && decide (r.nextCalls = 0)

/-! ## Login (`POST /login`) -/

/-- Everything `/login` does: the store afterwards, the response, and the arguments
passed to `check`, in order. -/
structure LoginResult where
  store : Store
  response : Response
  checkCalls : List (String × String)
  deriving DecidableEq, Repr

/-- `POST /login` with body `{ email, password }`. `check` is `bcrypt.compare`; the token
is issued by `token` under the process secret at time `now`. -/
def login (check : String → String → Bool) (lib : JwtLib) (JWT_SECRET : String) (now : Nat)
    (s : Store) (email password : String) : LoginResult :=
  -- `SELECT * FROM users WHERE email=$1`
  let rows := s.users.filter (fun u => decide (u.email = email))
  match rows with
  | [] => ⟨s, ⟨400, Body.error "No user"⟩, []⟩
  | user :: _ =>
    if check password user.password_hash then
      ⟨s, Response.json (Body.token (token lib JWT_SECRET now user)),
        [(password, user.password_hash)]⟩
    else
      ⟨s, ⟨400, Body.error "Bad password"⟩, [(password, user.password_hash)]⟩

/-! ## Sample data -/

/-- A library instance for evaluating the model: a toy signature, and a compact form
that is lossless on the one token the samples issue. -/
def sampleLib : JwtLib where
  mac := fun secret c e => secret.length + c.user_id + e
  encode := fun t => "eyJ." ++ t.claims.username
  decode := fun s =>
    if s = "eyJ.alice" then some ⟨⟨7, "alice"⟩, 604900, 604913⟩ else none

/-- A password check for evaluating the model: accepts exactly `pw123` for the sample
digest. -/
def sampleCheck (pw digest : String) : Bool :=
  decide (pw = "pw123") && decide (digest = "$2a$10$digest")

/-- A verification that rejects every token. -/
def rejectAll (_ : String) : Except JwtError Claims := Except.error JwtError.InvalidSignature

/-- The store with no rows. -/
def emptyStore : Store := ⟨[], [], []⟩

/-- A sample user. -/
def alice : UserRow := ⟨7, "alice", "alice@x.com", "$2a$10$digest", 0⟩

/-- A store holding the sample user, no request and the edge `(2, 1)`. -/
def edgeStore : Store := ⟨[alice], [], [⟨2, 1⟩]⟩

/-- A store holding the sample user, one pending request `3 → 4` and the edge `(2, 1)`. -/
def sampleStore : Store :=
  ⟨[alice], [⟨3, 4, Status.Pending⟩], [⟨2, 1⟩]⟩


/-! ## Lemmas on the statements -/

theorem sameRequest_iff (r : RequestRow) (a b : Nat) :
    sameRequest r a b = true ↔ r.key = (a, b) := by
  simp [sameRequest, RequestRow.key]

theorem sameRequest_eq (a b : Nat) :
    (fun r => sameRequest r a b) = fun r => decide (RequestRow.key r = (a, b)) := by
  funext r
  simp [sameRequest, RequestRow.key]

theorem sameFriend_iff (r : FriendRow) (a b : Nat) :
    sameFriend r a b = true ↔ r.edge = (min a b, max a b) := by
  simp only [sameFriend, FriendRow.edge, Bool.or_eq_true, Bool.and_eq_true, decide_eq_true_eq,
    Prod.mk.injEq]
  omega

theorem sameFriend_eq (a b : Nat) :
    (fun r => sameFriend r a b) = fun r => decide (FriendRow.edge r = (min a b, max a b)) := by
  funext r
  by_cases h : sameFriend r a b = true
  · rw [h, eq_comm, decide_eq_true_eq]
    exact (sameFriend_iff r a b).1 h
  · have h2 : ¬ r.edge = (min a b, max a b) := fun e => h ((sameFriend_iff r a b).2 e)
    simp only [Bool.not_eq_true] at h
    rw [h, eq_comm, decide_eq_false_iff_not]
    exact h2

theorem countP_key_le_one {α K : Type} [DecidableEq K] (f : α → K) (k : K) (l : List α)
    (h : (l.map f).Nodup) : l.countP (fun x => decide (f x = k)) ≤ 1 := by
  induction l with
  | nil => simp
  | cons x xs ih =>
    rw [List.map_cons, List.nodup_cons] at h
    by_cases hx : f x = k
    · have h0 : xs.countP (fun y => decide (f y = k)) = 0 := by
        rw [List.countP_eq_zero]
        intro y hy hyk
        apply h.1
        have : f y = k := by simpa using hyk
        rw [hx, ← this]
        exact List.mem_map_of_mem f hy
      simp [List.countP_cons, hx, h0]
    · have := ih h.2
      simp [List.countP_cons, hx, this]

theorem insertRequest_keys_nodup (rows : List RequestRow) (a b : Nat)
    (h : (rows.map RequestRow.key).Nodup) :
    ((insertRequest rows a b).map RequestRow.key).Nodup := by
  unfold insertRequest
  split
  · exact h
  · rename_i hany
    rw [List.map_append, List.nodup_append]
    refine ⟨h, by simp, ?_⟩
    intro k hk hk2
    simp only [List.map_cons, List.map_nil, List.mem_singleton] at hk2
    obtain ⟨r, hr, rfl⟩ := List.mem_map.1 hk
    apply hany
    exact List.any_eq_true.2 ⟨r, hr, (sameRequest_iff r a b).2 hk2⟩

theorem insertFriend_edges_nodup (rows : List FriendRow) (a b : Nat)
    (h : (rows.map FriendRow.edge).Nodup) :
    ((insertFriend rows a b).map FriendRow.edge).Nodup := by
  unfold insertFriend
  split
  · exact h
  · rename_i hany
    rw [List.map_append, List.nodup_append]
    refine ⟨h, by simp, ?_⟩
    intro k hk hk2
    simp only [List.map_cons, List.map_nil, List.mem_singleton] at hk2
    obtain ⟨r, hr, rfl⟩ := List.mem_map.1 hk
    apply hany
    refine List.any_eq_true.2 ⟨r, hr, (sameFriend_iff r a b).2 ?_⟩
    rw [hk2]
    rfl

theorem insertRequest_any (rows : List RequestRow) (a b : Nat) :
    (insertRequest rows a b).any (fun r => sameRequest r a b) = true := by
  unfold insertRequest
  split
  · assumption
  · simp [sameRequest]

theorem insertFriend_any (rows : List FriendRow) (a b : Nat) :
    (insertFriend rows a b).any (fun r => sameFriend r a b) = true := by
  unfold insertFriend
  split
  · assumption
  · simp [sameFriend]

theorem insertRequest_idem (rows : List RequestRow) (a b : Nat) :
    insertRequest (insertRequest rows a b) a b = insertRequest rows a b := by
  have key : ∀ l : List RequestRow, l.any (fun r => sameRequest r a b) = true →
      insertRequest l a b = l := by
    intro l hl
    unfold insertRequest
    rw [if_pos hl]
  exact key _ (insertRequest_any rows a b)

theorem countP_pos_of_any {α : Type} (p : α → Bool) (l : List α) (h : l.any p = true) :
    0 < l.countP p := by
  obtain ⟨x, hx, hp⟩ := List.any_eq_true.1 h
  exact List.countP_pos_iff.2 ⟨x, hx, hp⟩

theorem countP_request_le_one (rows : List RequestRow) (a b : Nat)
    (h : (rows.map RequestRow.key).Nodup) :
    rows.countP (fun r => sameRequest r a b) ≤ 1 := by
  rw [sameRequest_eq]
  exact countP_key_le_one RequestRow.key (a, b) rows h

theorem countP_friend_le_one (rows : List FriendRow) (a b : Nat)
    (h : (rows.map FriendRow.edge).Nodup) :
    rows.countP (fun r => sameFriend r a b) ≤ 1 := by
  rw [sameFriend_eq]
  exact countP_key_le_one FriendRow.edge (min a b, max a b) rows h

theorem countP_insertRequest (rows : List RequestRow) (a b : Nat)
    (h : (rows.map RequestRow.key).Nodup) :
    (insertRequest rows a b).countP (fun r => sameRequest r a b) = 1 := by
  have hle := countP_request_le_one _ a b (insertRequest_keys_nodup rows a b h)
  have hpos := countP_pos_of_any _ _ (insertRequest_any rows a b)
  omega

theorem countP_insertFriend (rows : List FriendRow) (a b : Nat)
    (h : (rows.map FriendRow.edge).Nodup) :
    (insertFriend rows a b).countP (fun r => sameFriend r a b) = 1 := by
  have hle := countP_friend_le_one _ a b (insertFriend_edges_nodup rows a b h)
  have hpos := countP_pos_of_any _ _ (insertFriend_any rows a b)
  omega

theorem not_both_directions (rows : List FriendRow) (a b : Nat)
    (h : (rows.map FriendRow.edge).Nodup) (hne : a ≠ b) :
    ¬ ((⟨a, b⟩ : FriendRow) ∈ rows ∧ (⟨b, a⟩ : FriendRow) ∈ rows) := by
  rintro ⟨hab, hba⟩
  have he : FriendRow.edge ⟨a, b⟩ = FriendRow.edge ⟨b, a⟩ := by
    simp only [FriendRow.edge, Prod.mk.injEq]
    omega
  have := List.inj_on_of_nodup_map h hab hba he
  simp only [FriendRow.mk.injEq] at this
  exact hne this.1

theorem updateAccepted_keys (rows : List RequestRow) (a b : Nat) :
    (updateAccepted rows a b).map RequestRow.key = rows.map RequestRow.key := by
  unfold updateAccepted
  rw [List.map_map]
  apply List.map_congr_left
  intro r _
  by_cases h : sameRequest r a b = true <;> simp [h, RequestRow.key]

theorem countP_request_of_keys (l₁ l₂ : List RequestRow) (a b : Nat)
    (h : l₁.map RequestRow.key = l₂.map RequestRow.key) :
    l₁.countP (fun r => sameRequest r a b) = l₂.countP (fun r => sameRequest r a b) := by
  have e : ∀ l : List RequestRow, l.countP (fun r => sameRequest r a b) =
      (l.map RequestRow.key).countP (fun k => decide (k = (a, b))) := by
    intro l
    rw [List.countP_map, sameRequest_eq]
    rfl
  rw [e l₁, e l₂, h]

theorem updateAccepted_of_none (rows : List RequestRow) (a b : Nat)
    (h : rows.any (fun r => sameRequest r a b) = false) : updateAccepted rows a b = rows := by
  unfold updateAccepted
  conv_rhs => rw [← List.map_id rows]
  apply List.map_congr_left
  intro r hr
  have : sameRequest r a b = false := by
    rw [List.any_eq_false] at h
    simpa using h r hr
  simp [this]

theorem updateAccepted_status (rows : List RequestRow) (a b : Nat) (r : RequestRow)
    (hr : r ∈ updateAccepted rows a b) (hk : sameRequest r a b = true) :
    r.status = Status.Accepted := by
  unfold updateAccepted at hr
  obtain ⟨r₀, _, rfl⟩ := List.mem_map.1 hr
  by_cases h : sameRequest r₀ a b = true
  · simp [h]
  · simp [h] at hk

theorem step_friend_unique (s : Store) (op : Op) (h : (s.friend.map FriendRow.edge).Nodup) :
    ((step s op).friend.map FriendRow.edge).Nodup := by
  cases op with
  | request c t => exact h
  | accept c f => exact insertFriend_edges_nodup s.friend f c h

theorem run_friend_unique (ops : List Op) (s : Store)
    (h : (s.friend.map FriendRow.edge).Nodup) :
    ((run s ops).friend.map FriendRow.edge).Nodup := by
  induction ops generalizing s with
  | nil => exact h
  | cons op rest ih => exact ih (step s op) (step_friend_unique s op h)

/-! ## The relationship engine -/

/-- C1: on a store whose tables satisfy their keys, two friend requests from `A` to `B` in
sequence leave exactly one `friend_requests` row keyed `(A, B)`, the second call leaves
the store as the first left it, and both calls answer `{ sent: true }`. -/
theorem friendRequest_twice (s : Store) (A B : Nat) (h : s.wf) :
    (friendRequest (friendRequest s A B).1 A B).1.friend_requests.countP
        (fun r => sameRequest r A B) = 1 ∧
    (friendRequest (friendRequest s A B).1 A B).1 = (friendRequest s A B).1 ∧
    (friendRequest s A B).2 = Response.json Body.sent ∧
    (friendRequest (friendRequest s A B).1 A B).2 = Response.json Body.sent := by
  refine ⟨?_, ?_, rfl, rfl⟩
  · simp only [friendRequest, insertRequest_idem]
    exact countP_insertRequest s.friend_requests A B h.1
  · simp only [friendRequest, insertRequest_idem]

/-- Two requests from 3 to 4 on the sample store, where that request is already stored. -/
theorem friendRequest_twice_witness :
    sampleStore.wf ∧
    (friendRequest (friendRequest sampleStore 3 4).1 3 4).1.friend_requests.countP
        (fun r => sameRequest r 3 4) = 1 ∧
    (friendRequest (friendRequest sampleStore 3 4).1 3 4).1 = (friendRequest sampleStore 3 4).1 ∧
    (friendRequest sampleStore 3 4).2 = Response.json Body.sent ∧
    (friendRequest (friendRequest sampleStore 3 4).1 3 4).2 = Response.json Body.sent :=
  ⟨by decide, friendRequest_twice sampleStore 3 4 (by decide)⟩


/-- C2: on a store whose tables satisfy their keys, after a request from `A` to `B`
followed by its acceptance by `B`, there is exactly one `friend_requests` row keyed
`(A, B)` and every such row has status `Accepted`, and the `friend` table holds exactly
one row linking `A` and `B`, counting `(A, B)` and `(B, A)` as the same edge. -/
theorem accept_after_request (s : Store) (A B : Nat) (h : s.wf) (hf : s.friendUnique) :
    (friendAccept (friendRequest s A B).1 B A).1.friend_requests.countP
        (fun r => sameRequest r A B) = 1 ∧
    (∀ r ∈ (friendAccept (friendRequest s A B).1 B A).1.friend_requests,
        sameRequest r A B = true → r.status = Status.Accepted) ∧
    (friendAccept (friendRequest s A B).1 B A).1.friend.countP
        (fun r => sameFriend r A B) = 1 := by
  refine ⟨?_, ?_, ?_⟩
  · simp only [friendAccept, friendRequest]
    rw [countP_request_of_keys _ _ A B (updateAccepted_keys _ A B)]
    exact countP_insertRequest s.friend_requests A B h.1
  · intro r hr hk
    exact updateAccepted_status _ A B r hr hk
  · simp only [friendAccept, friendRequest]
    exact countP_insertFriend s.friend A B hf

/-- Request from 1 to 2 and its acceptance by 2 on the sample store, where the edge is
already stored as `(2, 1)`; the same calls from the empty store store `(1, 2)`. -/
theorem accept_after_request_witness :
    sampleStore.wf ∧ sampleStore.friendUnique ∧
    ((friendAccept (friendRequest sampleStore 1 2).1 2 1).1.friend_requests.countP
        (fun r => sameRequest r 1 2) = 1 ∧
    (∀ r ∈ (friendAccept (friendRequest sampleStore 1 2).1 2 1).1.friend_requests,
        sameRequest r 1 2 = true → r.status = Status.Accepted) ∧
    (friendAccept (friendRequest sampleStore 1 2).1 2 1).1.friend.countP
        (fun r => sameFriend r 1 2) = 1) ∧
    (friendAccept (friendRequest sampleStore 1 2).1 2 1).1.friend_requests =
      [⟨3, 4, Status.Pending⟩, ⟨1, 2, Status.Accepted⟩] ∧
    (friendAccept (friendRequest sampleStore 1 2).1 2 1).1.friend = [⟨2, 1⟩] ∧
    (friendAccept (friendRequest emptyStore 1 2).1 2 1).1.friend = [⟨1, 2⟩] :=
  ⟨by decide, by decide, accept_after_request sampleStore 1 2 (by decide) (by decide),
    by decide, by decide, by decide⟩

/-- Counterexample to the row `(A, B)` being stored by every acceptance without request:
after acceptance by 1 of user 2 from the empty store, the edge is stored as `(2, 1)` and
there is no request from 1 to 2; acceptance by 2 of user 1 then leaves the `friend` table
as it was, without a row `(1, 2)`. -/
theorem accept_keeps_stored_edge :
    (run emptyStore [Op.accept 1 2]).friend_requests.any (fun r => sameRequest r 1 2) = false ∧
    (run emptyStore [Op.accept 1 2]).friend = [⟨2, 1⟩] ∧
    (friendAccept (run emptyStore [Op.accept 1 2]) 2 1).1.friend = [⟨2, 1⟩] ∧
    (⟨1, 2⟩ : FriendRow) ∉ (friendAccept (run emptyStore [Op.accept 1 2]) 2 1).1.friend := by
  decide

/-- C3 (amended): when no `friend_requests` row is keyed `(A, B)`, acceptance by `B` of a
request from `A` leaves `friend_requests` as it was and answers `{ accepted: true }`, and
the `friend` table afterwards holds a row linking `A` and `B`: when none was stored the
row `(user_id_1 = A, user_id_2 = B)` is appended, and when one was stored, in either
column order, the table is left as it was. -/
theorem accept_without_request (s : Store) (A B : Nat)
    (h : s.friend_requests.any (fun r => sameRequest r A B) = false) :
    (friendAccept s B A).1.friend_requests = s.friend_requests ∧
    (friendAccept s B A).1.friend.any (fun r => sameFriend r A B) = true ∧
    (s.friend.any (fun r => sameFriend r A B) = false →
      (friendAccept s B A).1.friend = s.friend ++ [⟨A, B⟩]) ∧
    (s.friend.any (fun r => sameFriend r A B) = true →
      (friendAccept s B A).1.friend = s.friend) ∧
    (friendAccept s B A).2 = Response.json Body.accepted := by
  refine ⟨?_, ?_, ?_, ?_, rfl⟩
  · simp only [friendAccept]
    exact updateAccepted_of_none _ A B h
  · simp only [friendAccept]
    exact insertFriend_any s.friend A B
  · intro hn
    simp only [friendAccept, insertFriend, hn]
    rfl
  · intro hy
    simp only [friendAccept, insertFriend, hy]
    rfl

/-- Acceptance by 4 of user 3 on a store with no request row and no edge between them:
the row `(3, 4)` is appended. -/
theorem accept_without_request_witness :
    edgeStore.friend_requests.any (fun r => sameRequest r 3 4) = false ∧
    edgeStore.friend.any (fun r => sameFriend r 3 4) = false ∧
    (friendAccept edgeStore 4 3).1.friend_requests = edgeStore.friend_requests ∧
    (friendAccept edgeStore 4 3).1.friend = edgeStore.friend ++ [⟨3, 4⟩] ∧
    (friendAccept edgeStore 4 3).2 = Response.json Body.accepted :=
  ⟨by decide, by decide,
    (accept_without_request edgeStore 3 4 (by decide)).1,
    (accept_without_request edgeStore 3 4 (by decide)).2.2.1 (by decide),
    (accept_without_request edgeStore 3 4 (by decide)).2.2.2.2⟩

/-- C4: starting from a store with no `friend` rows, after every sequence of friend-request
and accept calls the `friend` table holds at most one row for each unordered pair: it
never holds both `(a, b)` and `(b, a)` for different users `a` and `b`. -/
theorem friend_unique_per_unordered_pair (s : Store) (ops : List Op) (h : s.friend = [])
    (a b : Nat) :
    (run s ops).friend.countP (fun r => sameFriend r a b) ≤ 1 ∧
    (a ≠ b → ¬ ((⟨a, b⟩ : FriendRow) ∈ (run s ops).friend ∧
      (⟨b, a⟩ : FriendRow) ∈ (run s ops).friend)) := by
  have hu : ((run s ops).friend.map FriendRow.edge).Nodup := by
    apply run_friend_unique
    rw [h]
    exact List.nodup_nil
  exact ⟨countP_friend_le_one _ a b hu, not_both_directions _ a b hu⟩

/-- Acceptance by 2 of user 1 followed by acceptance by 1 of user 2, from the empty store:
only the first edge `(1, 2)` is stored. -/
theorem friend_unique_per_unordered_pair_witness :
    emptyStore.friend = [] ∧
    (run emptyStore [Op.accept 2 1, Op.accept 1 2]).friend = [⟨1, 2⟩] ∧
    (run emptyStore [Op.accept 2 1, Op.accept 1 2]).friend.countP
      (fun r => sameFriend r 1 2) ≤ 1 ∧
    ((1 : Nat) ≠ 2 ∧
      ¬ ((⟨1, 2⟩ : FriendRow) ∈ (run emptyStore [Op.accept 2 1, Op.accept 1 2]).friend ∧
        (⟨2, 1⟩ : FriendRow) ∈ (run emptyStore [Op.accept 2 1, Op.accept 1 2]).friend)) :=
  ⟨rfl, by decide,
    (friend_unique_per_unordered_pair emptyStore [Op.accept 2 1, Op.accept 1 2] rfl 1 2).1,
    by decide,
    (friend_unique_per_unordered_pair emptyStore [Op.accept 2 1, Op.accept 1 2] rfl 1 2).2
      (by decide)⟩

/-- C8: acceptance by `C` of a request from `F` keeps the key columns of every
`friend_requests` row, in the same order (no row is inserted or deleted), and leaves
every row not keyed `(user_id_one = F, user_id_two = C)` as it was; in particular every
row whose `user_id_two` is not `C`, and when `C ≠ F` the reverse row `(C, F)`. -/
theorem accept_frame (s : Store) (C F : Nat) :
    (friendAccept s C F).1.friend_requests.map RequestRow.key =
        s.friend_requests.map RequestRow.key ∧
    (friendAccept s C F).1.friend_requests.length = s.friend_requests.length ∧
    (∀ (i : Nat) (r : RequestRow), s.friend_requests[i]? = some r →
        sameRequest r F C = false → (friendAccept s C F).1.friend_requests[i]? = some r) ∧
    (∀ (i : Nat) (r : RequestRow), s.friend_requests[i]? = some r →
        r.user_id_two ≠ C → (friendAccept s C F).1.friend_requests[i]? = some r) ∧
    (∀ (i : Nat) (r : RequestRow), s.friend_requests[i]? = some r →
        C ≠ F → sameRequest r C F = true →
        (friendAccept s C F).1.friend_requests[i]? = some r) := by
  have key : ∀ (i : Nat) (r : RequestRow), s.friend_requests[i]? = some r →
      sameRequest r F C = false → (friendAccept s C F).1.friend_requests[i]? = some r := by
    intro i r hi hk
    simp only [friendAccept, updateAccepted, List.getElem?_map, hi, Option.map_some']
    simp [hk]
  refine ⟨updateAccepted_keys _ F C, ?_, key, ?_, ?_⟩
  · simp [friendAccept, updateAccepted]
  · intro i r hi hne
    apply key i r hi
    simp only [sameRequest, Bool.and_eq_false_iff, decide_eq_false_iff_not]
    exact Or.inr hne
  · intro i r hi hne hk
    apply key i r hi
    simp only [sameRequest, Bool.and_eq_true, decide_eq_true_eq] at hk
    simp only [sameRequest, Bool.and_eq_false_iff, decide_eq_false_iff_not]
    omega

/-- Acceptance by 3 of user 4 on the sample store keeps the reverse row `(3, 4)`. -/
theorem accept_frame_witness :
    (friendAccept sampleStore 3 4).1.friend_requests.map RequestRow.key =
        sampleStore.friend_requests.map RequestRow.key ∧
    (friendAccept sampleStore 3 4).1.friend_requests.length =
        sampleStore.friend_requests.length ∧
    (sampleStore.friend_requests[0]? = some ⟨3, 4, Status.Pending⟩ ∧
      sameRequest ⟨3, 4, Status.Pending⟩ 4 3 = false ∧
      (friendAccept sampleStore 3 4).1.friend_requests[0]? = some ⟨3, 4, Status.Pending⟩) :=
  ⟨(accept_frame sampleStore 3 4).1, (accept_frame sampleStore 3 4).2.1,
    by decide, by decide,
    (accept_frame sampleStore 3 4).2.2.1 0 ⟨3, 4, Status.Pending⟩ (by decide) (by decide)⟩


/-! ## The authentication gate -/

theorem requireAuth_unprefixed {ε : Type} (verify : String → Except ε Claims) (hd : String)
    (h : startsWith hd "Bearer " = false) : requireAuth verify (some hd) = missingToken := by
  simp [requireAuth, h]

theorem requireAuth_absent {ε : Type} (verify : String → Except ε Claims) :
    requireAuth verify none = missingToken := by
  have h : startsWith "" "Bearer " = false := by decide
  simp [requireAuth, h]

theorem requireAuth_empty {ε : Type} (verify : String → Except ε Claims) (hd : String)
    (h : startsWith hd "Bearer " = true) (he : slice hd 7 = "") :
    requireAuth verify (some hd) = missingToken := by
  simp [requireAuth, h, he]

theorem requireAuth_verified {ε : Type} (verify : String → Except ε Claims) (hd : String)
    (h : startsWith hd "Bearer " = true) (he : slice hd 7 ≠ "") :
    requireAuth verify (some hd) =
      match verify (slice hd 7) with
      | Except.ok claims => ⟨none, some claims, 1, [slice hd 7]⟩
      | Except.error _ => ⟨some ⟨401, Body.error "Invalid token"⟩, none, 0, [slice hd 7]⟩ := by
  simp [requireAuth, h, he]

/-- C5: when the Authorization header is absent or does not start with `Bearer `, the gate
answers 401 `{ error: "Missing token" }`, does not call `next`, leaves `req.user` unset
and never calls the verification. -/
theorem requireAuth_missing {ε : Type} (verify : String → Except ε Claims)
    (authorization : Option String)
    (h : authorization = none ∨
      ∃ hd, authorization = some hd ∧ startsWith hd "Bearer " = false) :
    (requireAuth verify authorization).response = some ⟨401, Body.error "Missing token"⟩ ∧
    (requireAuth verify authorization).nextCalls = 0 ∧
    (requireAuth verify authorization).user = none ∧
    (requireAuth verify authorization).verifyCalls = [] := by
  have e : requireAuth verify authorization = missingToken := by
    rcases h with h | ⟨hd, h, hp⟩
    · rw [h]
      exact requireAuth_absent verify
    · rw [h]
      exact requireAuth_unprefixed verify hd hp
  rw [e]
  exact ⟨rfl, rfl, rfl, rfl⟩

/-- The gate on a `Basic` header. -/
theorem requireAuth_missing_witness :
    ((some "Basic dXNlcg==" : Option String) = none ∨
      ∃ hd, (some "Basic dXNlcg==" : Option String) = some hd ∧
        startsWith hd "Bearer " = false) ∧
    (requireAuth rejectAll (some "Basic dXNlcg==")).response =
      some ⟨401, Body.error "Missing token"⟩ ∧
    (requireAuth rejectAll (some "Basic dXNlcg==")).nextCalls = 0 ∧
    (requireAuth rejectAll (some "Basic dXNlcg==")).user = none ∧
    (requireAuth rejectAll (some "Basic dXNlcg==")).verifyCalls = [] :=
  ⟨Or.inr ⟨"Basic dXNlcg==", rfl, by decide⟩,
    requireAuth_missing rejectAll (some "Basic dXNlcg==")
      (Or.inr ⟨"Basic dXNlcg==", rfl, by decide⟩)⟩

/-- Counterexample to verification deciding every prefixed header: the header `Bearer ` followed by nothing starts with the
prefix and the verification of its remainder fails, yet the gate answers
`Missing token`, not `Invalid token`, and never calls the verification. -/
theorem bearer_with_empty_token :
    startsWith "Bearer " "Bearer " = true ∧
    rejectAll (slice "Bearer " 7) = Except.error JwtError.InvalidSignature ∧
    (requireAuth rejectAll (some "Bearer ")).response =
      some ⟨401, Body.error "Missing token"⟩ ∧
    (requireAuth rejectAll (some "Bearer ")).response ≠
      some ⟨401, Body.error "Invalid token"⟩ ∧
    (requireAuth rejectAll (some "Bearer ")).verifyCalls = [] :=
  ⟨by decide, rfl, by decide, by decide, by decide⟩

/-- C6 (amended): when the Authorization header starts with `Bearer ` and the text after
the 7-character prefix is not empty, the gate verifies exactly that text, once: if the
verification fails it answers 401 `{ error: "Invalid token" }` without calling `next` or
setting `req.user`; if it succeeds, `req.user` is the verified claims, `next` is called
once and no response is sent. When the text after the prefix is empty the gate answers
401 `{ error: "Missing token" }` without verifying. -/
theorem requireAuth_bearer {ε : Type} (verify : String → Except ε Claims) (hd : String)
    (h : startsWith hd "Bearer " = true) :
    (slice hd 7 ≠ "" →
      (requireAuth verify (some hd)).verifyCalls = [slice hd 7] ∧
      (∀ e, verify (slice hd 7) = Except.error e →
        requireAuth verify (some hd) =
          ⟨some ⟨401, Body.error "Invalid token"⟩, none, 0, [slice hd 7]⟩) ∧
      (∀ claims, verify (slice hd 7) = Except.ok claims →
        requireAuth verify (some hd) = ⟨none, some claims, 1, [slice hd 7]⟩)) ∧
    (slice hd 7 = "" → requireAuth verify (some hd) = missingToken) := by
  refine ⟨?_, requireAuth_empty verify hd h⟩
  intro he
  have e := requireAuth_verified verify hd h he
  refine ⟨?_, ?_, ?_⟩
  · rw [e]
    cases verify (slice hd 7) <;> rfl
  · intro err hv
    rw [e, hv]
  · intro claims hv
    rw [e, hv]

/-- The gate on a bearer token that fails verification. -/
theorem requireAuth_bearer_witness :
    startsWith "Bearer eyJ.alice" "Bearer " = true ∧
    slice "Bearer eyJ.alice" 7 ≠ "" ∧
    rejectAll (slice "Bearer eyJ.alice" 7) = Except.error JwtError.InvalidSignature ∧
    requireAuth rejectAll (some "Bearer eyJ.alice") =
      ⟨some ⟨401, Body.error "Invalid token"⟩, none, 0, [slice "Bearer eyJ.alice" 7]⟩ :=
  ⟨by decide, by decide, rfl,
    ((requireAuth_bearer rejectAll "Bearer eyJ.alice" (by decide)).1 (by decide)).2.1
      JwtError.InvalidSignature rfl⟩

/-- Counterexample to uniform rejections: a request without header and a request whose token fails
verification are both rejected, with different bodies. -/
theorem rejections_differ :
    (requireAuth rejectAll none).rejected = true ∧
    (requireAuth rejectAll (some "Bearer eyJ.alice")).rejected = true ∧
    (requireAuth rejectAll none).response = some ⟨401, Body.error "Missing token"⟩ ∧
    (requireAuth rejectAll (some "Bearer eyJ.alice")).response =
      some ⟨401, Body.error "Invalid token"⟩ ∧
    (requireAuth rejectAll none).response ≠
      (requireAuth rejectAll (some "Bearer eyJ.alice")).response := by
  decide

theorem requireAuth_cases {ε : Type} (verify : String → Except ε Claims)
    (authorization : Option String) :
    requireAuth verify authorization = missingToken ∨
    (∃ t e, verify t = Except.error e ∧ requireAuth verify authorization =
      ⟨some ⟨401, Body.error "Invalid token"⟩, none, 0, [t]⟩) ∨
    (∃ t claims, verify t = Except.ok claims ∧ requireAuth verify authorization =
      ⟨none, some claims, 1, [t]⟩) := by
  cases authorization with
  | none => exact Or.inl (requireAuth_absent verify)
  | some hd =>
    by_cases h : startsWith hd "Bearer " = true
    · by_cases he : slice hd 7 = ""
      · exact Or.inl (requireAuth_empty verify hd h he)
      · have e := requireAuth_verified verify hd h he
        cases hv : verify (slice hd 7) with
        | error err =>
          rw [hv] at e
          exact Or.inr (Or.inl ⟨_, err, hv, e⟩)
        | ok claims =>
          rw [hv] at e
          exact Or.inr (Or.inr ⟨_, claims, hv, e⟩)
    · simp only [Bool.not_eq_true] at h
      exact Or.inl (requireAuth_unprefixed verify hd h)

/-- C7 (amended): every rejection of the gate has status 401; its body is
`{ error: "Missing token" }` when the verification was never called and
`{ error: "Invalid token" }` when it was called and failed, whatever the failure. Two
rejections are therefore identical in status, and identical in body exactly when both
or neither reached the verification. -/
theorem rejections_uniform_per_stage {ε : Type} (verify : String → Except ε Claims)
    (a₁ a₂ : Option String)
    (h₁ : (requireAuth verify a₁).rejected = true)
    (h₂ : (requireAuth verify a₂).rejected = true) :
    (requireAuth verify a₁).response.map Response.status = some 401 ∧
    (requireAuth verify a₂).response.map Response.status = some 401 ∧
    ((requireAuth verify a₁).verifyCalls = [] →
      (requireAuth verify a₁).response = some ⟨401, Body.error "Missing token"⟩) ∧
    ((requireAuth verify a₁).verifyCalls ≠ [] →
      (requireAuth verify a₁).response = some ⟨401, Body.error "Invalid token"⟩) ∧
    ((requireAuth verify a₁).response = (requireAuth verify a₂).response ↔
      ((requireAuth verify a₁).verifyCalls = [] ↔ (requireAuth verify a₂).verifyCalls = [])) := by
  rcases requireAuth_cases verify a₁ with e₁ | ⟨t₁, _, _, e₁⟩ | ⟨t₁, c₁, _, e₁⟩ <;>
  rcases requireAuth_cases verify a₂ with e₂ | ⟨t₂, _, _, e₂⟩ | ⟨t₂, c₂, _, e₂⟩ <;>
  rw [e₁] at h₁ ⊢ <;> rw [e₂] at h₂ ⊢ <;>
  simp [GateResult.rejected, missingToken] at h₁ h₂ ⊢

/-- Two bearer tokens that fail verification get the same response. -/
theorem rejections_uniform_per_stage_witness :
    (requireAuth rejectAll (some "Bearer eyJ.alice")).rejected = true ∧
    (requireAuth rejectAll (some "Bearer eyJ.bob")).rejected = true ∧
    (requireAuth rejectAll (some "Bearer eyJ.alice")).response =
      (requireAuth rejectAll (some "Bearer eyJ.bob")).response :=
  ⟨by decide, by decide,
    (rejections_uniform_per_stage rejectAll (some "Bearer eyJ.alice") (some "Bearer eyJ.bob")
      (by decide) (by decide)).2.2.2.2.2 (by decide)⟩

/-! ## Session tokens and login -/

theorem filter_of_find {α : Type} (p : α → Bool) (l : List α) (x : α)
    (h : l.find? p = some x) : ∃ rest, l.filter p = x :: rest := by
  induction l with
  | nil => simp at h
  | cons y ys ih =>
    by_cases hy : p y = true
    · simp only [List.find?_cons, hy, Option.some.injEq] at h
      subst h
      exact ⟨ys.filter p, by simp [List.filter_cons, hy]⟩
    · simp only [Bool.not_eq_true] at hy
      simp only [List.find?_cons, hy] at h
      obtain ⟨rest, hr⟩ := ih h
      exact ⟨rest, by simp [List.filter_cons, hy, hr]⟩

/-- C9: a token issued by `token(user)` and verified under the same secret no later than
its expiration yields the claims `{ user_id, username }` of the user unchanged, and the
gate given `Bearer ` followed by that token sends no response, calls `next` once and
leaves exactly these claims in `req.user`; provided the compact form of the issued token
is not empty and decodes back to the token. -/
theorem token_round_trip (lib : JwtLib) (JWT_SECRET : String) (user : UserRow) (t₀ t₁ : Nat)
    (hcodec : lib.decode
        (lib.encode (signedToken lib ⟨user.user_id, user.username⟩ JWT_SECRET sevenDays t₀)) =
      some (signedToken lib ⟨user.user_id, user.username⟩ JWT_SECRET sevenDays t₀))
    (hne : token lib JWT_SECRET t₀ user ≠ "")
    (ht : t₁ ≤ t₀ + sevenDays) :
    jwtVerify lib (token lib JWT_SECRET t₀ user) JWT_SECRET t₁ =
      Except.ok ⟨user.user_id, user.username⟩ ∧
    gate lib JWT_SECRET t₁ (some ("Bearer " ++ token lib JWT_SECRET t₀ user)) =
      ⟨none, some ⟨user.user_id, user.username⟩, 1, [token lib JWT_SECRET t₀ user]⟩ := by
  have hv : jwtVerify lib (token lib JWT_SECRET t₀ user) JWT_SECRET t₁ =
      Except.ok ⟨user.user_id, user.username⟩ := by
    unfold jwtVerify token jwtSign
    rw [hcodec]
    simp only [signedToken, ne_eq, not_true_eq_false, if_false]
    rw [if_neg (by omega)]
  refine ⟨hv, ?_⟩
  have hp : startsWith ("Bearer " ++ token lib JWT_SECRET t₀ user) "Bearer " = true := by
    simp [startsWith]
  have hs : slice ("Bearer " ++ token lib JWT_SECRET t₀ user) 7 = token lib JWT_SECRET t₀ user := by
    simp [slice]
  unfold gate
  rw [requireAuth_verified _ _ hp (by rw [hs]; exact hne), hs, hv]

/-- The sample user: token issued at time 100 and verified at time 200. -/
theorem token_round_trip_witness :
    sampleLib.decode
        (sampleLib.encode (signedToken sampleLib ⟨alice.user_id, alice.username⟩ "s3cret"
          sevenDays 100)) =
      some (signedToken sampleLib ⟨alice.user_id, alice.username⟩ "s3cret" sevenDays 100) ∧
    token sampleLib "s3cret" 100 alice ≠ "" ∧
    200 ≤ 100 + sevenDays ∧
    jwtVerify sampleLib (token sampleLib "s3cret" 100 alice) "s3cret" 200 =
      Except.ok ⟨alice.user_id, alice.username⟩ ∧
    gate sampleLib "s3cret" 200 (some ("Bearer " ++ token sampleLib "s3cret" 100 alice)) =
      ⟨none, some ⟨alice.user_id, alice.username⟩, 1, [token sampleLib "s3cret" 100 alice]⟩ :=
  ⟨by decide, by decide, by decide,
    token_round_trip sampleLib "s3cret" alice 100 200 (by decide) (by decide) (by decide)⟩

/-- C10: login never changes the store, and its answer falls in exactly three cases. If no
`users` row has the email, it answers 400 `{ error: "No user" }` and never calls the
password check. Otherwise it calls the check once, on the password and the
`password_hash` of the first row with that email: if the check is false it answers 400
`{ error: "Bad password" }`, and if it is true it answers with a token issued for that
row's `user_id` and `username`. -/
theorem login_cases (check : String → String → Bool) (lib : JwtLib) (JWT_SECRET : String)
    (now : Nat) (s : Store) (email password : String) :
    (login check lib JWT_SECRET now s email password).store = s ∧
    ((∀ u ∈ s.users, u.email ≠ email) →
      (login check lib JWT_SECRET now s email password).response =
        ⟨400, Body.error "No user"⟩ ∧
      (login check lib JWT_SECRET now s email password).checkCalls = []) ∧
    (∀ user, s.users.find? (fun u => decide (u.email = email)) = some user →
      (login check lib JWT_SECRET now s email password).checkCalls =
        [(password, user.password_hash)] ∧
      (check password user.password_hash = false →
        (login check lib JWT_SECRET now s email password).response =
          ⟨400, Body.error "Bad password"⟩) ∧
      (check password user.password_hash = true →
        (login check lib JWT_SECRET now s email password).response =
          ⟨200, Body.token
            (jwtSign lib ⟨user.user_id, user.username⟩ JWT_SECRET sevenDays now)⟩)) := by
  refine ⟨?_, ?_, ?_⟩
  · unfold login
    cases hf : s.users.filter (fun u => decide (u.email = email)) with
    | nil => rfl
    | cons user rest =>
      by_cases hc : check password user.password_hash = true <;> simp [hc]
  · intro h
    have hf : s.users.filter (fun u => decide (u.email = email)) = [] := by
      rw [List.filter_eq_nil_iff]
      intro u hu
      simpa using h u hu
    simp [login, hf]
  · intro user hfind
    obtain ⟨rest, hf⟩ := filter_of_find _ _ _ hfind
    by_cases hc : check password user.password_hash = true
    · simp [login, hf, hc, Response.json, token]
    · simp only [Bool.not_eq_true] at hc
      simp [login, hf, hc]

/-- The sample user logs in, and an unknown email is refused. -/
theorem login_cases_witness :
    sampleStore.users.find? (fun u => decide (u.email = "alice@x.com")) = some alice ∧
    sampleCheck "pw123" alice.password_hash = true ∧
    (login sampleCheck sampleLib "s3cret" 100 sampleStore "alice@x.com" "pw123").response =
      ⟨200, Body.token
        (jwtSign sampleLib ⟨alice.user_id, alice.username⟩ "s3cret" sevenDays 100)⟩ ∧
    (∀ u ∈ sampleStore.users, u.email ≠ "bob@x.com") ∧
    (login sampleCheck sampleLib "s3cret" 100 sampleStore "bob@x.com" "pw123").response =
      ⟨400, Body.error "No user"⟩ :=
  ⟨by decide, by decide,
    ((login_cases sampleCheck sampleLib "s3cret" 100 sampleStore "alice@x.com" "pw123").2.2
      alice (by decide)).2.2 (by decide),
    by decide,
    ((login_cases sampleCheck sampleLib "s3cret" 100 sampleStore "bob@x.com" "pw123").2.1
      (by decide)).1⟩

end Social
